import Mathlib

/-!
Verification of the OpenPhone order-automation pipeline (src/server.js)
against its natural-language specification.

The JavaScript source is shallowly embedded: JSON values (the data that
flows between the classifier and the sinks) are a `Json` inductive;
external calls (HTTP fetch, OpenAI, Sheets append, Slack post) are
modelled by their outcomes, supplied as explicit inputs; a thrown
exception is an `Except.error`; `try { … } catch { … }` is a `match` on
that `Except`. Machine state (`processedMessageIds`, `lastProcessedTime`)
is passed explicitly. Observable actions of the pipeline (classifier
invocation, sink invocations, marking a message processed) are recorded
in an event trace so that claims about "X is never invoked" are statable.
-/

namespace OrderAutomation

/-- JavaScript values that appear in this program: the result of
`JSON.parse`, plus `undefined` (property access on a missing key). -/
inductive Json where
  | undefined : Json
  | null : Json
  | bool (b : Bool) : Json
  | num (n : Int) : Json
  | str (s : String) : Json
  | arr (elems : List Json) : Json
  | obj (fields : List (String × Json)) : Json

/-- Last-wins association lookup, matching `JSON.parse` semantics for
duplicate keys and ordinary JS object property lookup. -/
def lookupLast (k : String) : List (String × Json) → Option Json
  | [] => none
  | (k2, v) :: rest =>
      match lookupLast k rest with
      | some v2 => some v2
      | none => if k2 = k then some v else none

/-- Total JS property read `j[k]`: `undefined` on primitives and missing
keys (never throws). Used where the source reads a field of a value that
is known not to be null/undefined, and as the basis of `jsGetE`. -/
def jsGetD : Json → String → Json
  | .obj fs, k => (lookupLast k fs).getD .undefined
  | _, _ => .undefined

/-- JS property read `j.k` as it can actually fail: reading a property of
`null` or `undefined` throws a TypeError; any other receiver yields the
property value or `undefined`. -/
def jsGetE (j : Json) (k : String) : Except String Json :=
  match j with
  | .undefined => .error "TypeError: cannot read properties of undefined"
  | .null => .error "TypeError: cannot read properties of null"
  | _ => .ok (jsGetD j k)

/-- JS truthiness of a value, as used by `if (analysis.isOrder)` and
`orderData.specialRequests || 'None'`. -/
def jsTruthy : Json → Bool
  | .undefined => false
  | .null => false
  | .bool b => b
  | .num n => n != 0
  | .str s => s != ""
  | .arr _ => true
  | .obj _ => true

mutual
/-- Stringification of one array element inside `Array.prototype.join`:
null and undefined become the empty string, other values their usual
string conversion. -/
def jsElemStr : Json → String
  | .undefined => ""
  | .null => ""
  | .bool true => "true"
  | .bool false => "false"
  | .num n => toString n
  | .str s => s
  | .arr xs => jsElemStrList xs
  | .obj _ => "[object Object]"

/-- Elements of a nested array joined with the default separator, as JS
array-to-string conversion does. -/
def jsElemStrList : List Json → String
  | [] => ""
  | [x] => jsElemStr x
  | x :: xs => jsElemStr x ++ "," ++ jsElemStrList xs
end

/-- Join a list of JS values with a separator string. -/
def jsJoinList (sep : String) : List Json → String
  | [] => ""
  | [x] => jsElemStr x
  | x :: xs => jsElemStr x ++ sep ++ jsJoinList sep xs

/-- `v.join(sep)`: defined on arrays, a TypeError on every other receiver
(numbers, strings, booleans, null, undefined and plain objects have no
`join` method). -/
def jsJoin (v : Json) (sep : String) : Except String String :=
  match v with
  | .arr xs => .ok (jsJoinList sep xs)
  | _ => .error "TypeError: join is not a function"

/-- `v.toUpperCase()`: defined on strings only, a TypeError otherwise. -/
def jsToUpperCase (v : Json) : Except String String :=
  match v with
  | .str s => .ok s.toUpper
  | _ => .error "TypeError: toUpperCase is not a function"

/-- `Set.prototype.add` on a set represented as an insertion-ordered
duplicate-free list: a no-op when the element is present. -/
def jsSetAdd (s : List String) (x : String) : List String :=
  if x ∈ s then s else s ++ [x]

/-- Whether a JS value is an array. -/
def Json.isArr : Json → Bool
  | .arr _ => true
  | _ => false

/-- Whether a JS value is a string. -/
def Json.isStr : Json → Bool
  | .str _ => true
  | _ => false

/-- Whether a JS value is a plain object. -/
def Json.isObj : Json → Bool
  | .obj _ => true
  | _ => false

/-- The fixed civil timezone from CONFIG (src/server.js line 16). -/
def CONFIG_TIMEZONE : String := "America/New_York"

/-- One inbound/outbound message as consumed by the pipeline. -/
structure Message where
  id : String
  direction : String
  «from» : String
  body : String
  createdAt : Nat
deriving DecidableEq, Repr

/-- Observable actions of one pipeline run, in program order: the
classifier call (line 303), the two sink calls with their boolean
results (lines 309 and 312), and the `processedMessageIds.add` calls
(lines 296 and 324). -/
inductive Event where
  | classify (id : String)
  | ledgerCall (id : String) (success : Bool)
  | slackCall (id : String) (success : Bool)
  | markProcessed (id : String)
deriving DecidableEq, Repr

/-- `fetchOpenPhoneMessages` (src/server.js lines 46-70): with no API key
it returns `[]`; otherwise the axios GET either yields a message list or
throws, and the catch block returns `[]`. It never propagates an error. -/
def fetchOpenPhoneMessages (openphoneKey : Bool)
    (resp : Except String (List Message)) : List Message :=
  if !openphoneKey then []
  else
    match resp with
    | .ok ms => ms
    | .error _ => []

/-- `analyzeMessageForOrder` (src/server.js lines 73-136): with no OpenAI
key it returns `{isOrder:false}`; otherwise `resp` is the combined
outcome of the axios POST, the `choices[0].message.content` access and
`JSON.parse` — any throw in that chain reaches the catch block, which
returns `{isOrder:false}`; a successfully parsed value is returned
as-is, with no shape validation. -/
def analyzeMessageForOrder (openaiKey : Bool) (resp : Except String Json) : Json :=
  if !openaiKey then Json.obj [("isOrder", Json.bool false)]
  else
    match resp with
    | .ok analysis => analysis
    | .error _ => Json.obj [("isOrder", Json.bool false)]

/-- The row literal of `logOrderToSheet` (src/server.js lines 150-162),
with each field access and `join` evaluated in source order; any throw
(a TypeError from a field access on null/undefined `orderData` or from
`join` on a non-array) propagates to the enclosing catch. `locale tz t`
stands for `new Date(t).toLocaleString('en-US', {timeZone: tz})`. -/
def logRow (locale : String → Nat → String) (now : Nat) (orderData : Json)
    (msg : Message) : Except String (List Json) :=
  match jsGetE orderData "customerName" with
  | .error e => .error e
  | .ok name =>
  match jsGetE orderData "customerPhone" with
  | .error e => .error e
  | .ok phone =>
  match jsGetE orderData "products" with
  | .error e => .error e
  | .ok products =>
  match jsJoin products ", " with
  | .error e => .error e
  | .ok p =>
  match jsGetE orderData "quantities" with
  | .error e => .error e
  | .ok quantities =>
  match jsJoin quantities ", " with
  | .error e => .error e
  | .ok q =>
  match jsGetE orderData "totalAmount" with
  | .error e => .error e
  | .ok total =>
  match jsGetE orderData "specialRequests" with
  | .error e => .error e
  | .ok special =>
  match jsGetE orderData "urgency" with
  | .error e => .error e
  | .ok urg =>
    .ok [Json.str (locale CONFIG_TIMEZONE now), name, phone,
         Json.str p, Json.str q, total, special, urg,
         Json.str msg.body, Json.str msg.id, Json.str "Pending"]

/-- `logOrderToSheet` (src/server.js lines 139-179): returns `false` when
Sheets is not configured; builds the row (any TypeError is caught,
returning `false`); the `spreadsheets.values.append` call either
succeeds (modelled by `appendOk`) or throws into the catch. The second
component is the list of rows durably appended: `[row]` exactly when the
call returns `true`. The function never propagates an error. -/
def logOrderToSheet (sheetsConfigured appendOk : Bool)
    (locale : String → Nat → String) (now : Nat)
    (orderData : Json) (msg : Message) : Bool × List (List Json) :=
  if !sheetsConfigured then (false, [])
  else
    match logRow locale now orderData msg with
    | .error _ => (false, [])
    | .ok row => if appendOk then (true, [row]) else (false, [])

/-- The throwing subexpressions of `sendSlackNotification`'s payload
construction (src/server.js lines 189-264), in source evaluation order:
the `orderData.urgency` read for the emoji lookup (line 195), then the
field reads and methods inside the blocks literal — `customerName`,
`customerPhone`, `products.join`, `quantities.join`, `totalAmount`,
`urgency.toUpperCase()`, `specialRequests`. The pure string
interpolation around them cannot throw and does not affect the returned
boolean, so its text is not reproduced. -/
def slackChecks (orderData : Json) : Except String (String × String × String) :=
  match jsGetE orderData "urgency" with
  | .error e => .error e
  | .ok _urgForEmoji =>
  match jsGetE orderData "customerName" with
  | .error e => .error e
  | .ok _name =>
  match jsGetE orderData "customerPhone" with
  | .error e => .error e
  | .ok _phone =>
  match jsGetE orderData "products" with
  | .error e => .error e
  | .ok products =>
  match jsJoin products ", " with
  | .error e => .error e
  | .ok p =>
  match jsGetE orderData "quantities" with
  | .error e => .error e
  | .ok quantities =>
  match jsJoin quantities ", " with
  | .error e => .error e
  | .ok q =>
  match jsGetE orderData "totalAmount" with
  | .error e => .error e
  | .ok _total =>
  match jsGetE orderData "urgency" with
  | .error e => .error e
  | .ok urg =>
  match jsToUpperCase urg with
  | .error e => .error e
  | .ok u =>
  match jsGetE orderData "specialRequests" with
  | .error e => .error e
  | .ok _special =>
    .ok (p, q, u)

/-- `sendSlackNotification` (src/server.js lines 182-278): returns `false`
when the webhook URL is not configured; any TypeError while building the
payload is caught, returning `false`; the axios POST either succeeds
(`postOk`) or throws into the catch. Never propagates an error. -/
def sendSlackNotification (slackConfigured postOk : Bool)
    (orderData : Json) (msg : Message) : Bool :=
  if !slackConfigured then false
  else
    match slackChecks orderData with
    | .error _ => false
    | .ok _ => postOk

/-- Outcomes of the external world for one run: configuration presence,
the classifier response per message id, and the per-message results of
the two sink deliveries. `locale`/`sheetNow` feed the ledger timestamp. -/
structure Env where
  openaiKey : Bool
  classifierResp : String → Except String Json
  sheetsConfigured : Bool
  appendOk : String → Bool
  slackConfigured : Bool
  postOk : String → Bool
  locale : String → Nat → String
  sheetNow : Nat

/-- The loop body of `processMessages` for one message (src/server.js
lines 288-325). An `Except.error` models a throw escaping the loop body
(this happens exactly when `analysis.isOrder` is read on a null or
undefined analysis, line 305); it carries the state and events produced
before the throw, since `processedMessageIds` is mutated in place. -/
def processOneMessage (env : Env) (s : List String) (m : Message) :
    Except (List String × List Event) (List String × List Event) :=
  if m.id ∈ s then .ok (s, [])
  else if m.direction != "inbound" then
    .ok (jsSetAdd s m.id, [.markProcessed m.id])
  else
    let analysis := analyzeMessageForOrder env.openaiKey (env.classifierResp m.id)
    match jsGetE analysis "isOrder" with
    | .error _ => .error (s, [.classify m.id])
    | .ok v =>
      if jsTruthy v then
        let sheetSuccess :=
          (logOrderToSheet env.sheetsConfigured (env.appendOk m.id)
            env.locale env.sheetNow analysis m).1
        let slackSuccess :=
          sendSlackNotification env.slackConfigured (env.postOk m.id) analysis m
        .ok (jsSetAdd s m.id,
             [.classify m.id, .ledgerCall m.id sheetSuccess,
              .slackCall m.id slackSuccess, .markProcessed m.id])
      else
        .ok (jsSetAdd s m.id, [.classify m.id, .markProcessed m.id])

/-- The `for…of` loop of `processMessages`: messages strictly in batch
order, state threaded through; a throw in a loop body aborts the rest of
the loop, keeping the mutations already made. -/
def runLoop (env : Env) : List Message → List String → List Event →
    Except (List String × List Event) (List String × List Event)
  | [], s, evs => .ok (s, evs)
  | m :: rest, s, evs =>
      match processOneMessage env s m with
      | .error (s2, ev) => .error (s2, evs ++ ev)
      | .ok (s2, ev) => runLoop env rest s2 (evs ++ ev)

/-- Result of one `processMessages` run: the dedup set and watermark
after the run, the event trace, and the value the async function
resolves with. -/
structure RunOutcome where
  processedIds : List String
  lastProcessedTime : Nat
  events : List Event
  retVal : Json

/-- `processMessages` (src/server.js lines 281-334): fetch (which never
throws), the per-message loop, then `lastProcessedTime = new Date()`
(modelled by `now`). The surrounding try/catch means a throw escaping
the loop skips the watermark update but keeps the dedup-set mutations
already made. The function body has no return statement, so the async
function resolves with `undefined` on every path. -/
def processMessages (env : Env) (openphoneKey : Bool)
    (fetchResp : Except String (List Message))
    (processedIds0 : List String) (lastProcessedTime0 now : Nat) : RunOutcome :=
  match runLoop env (fetchOpenPhoneMessages openphoneKey fetchResp) processedIds0 [] with
  | .ok (s, evs) =>
      { processedIds := s, lastProcessedTime := now,
        events := evs, retVal := Json.undefined }
  | .error (s, evs) =>
      { processedIds := s, lastProcessedTime := lastProcessedTime0,
        events := evs, retVal := Json.undefined }

/-- Inputs of one scheduled or manual invocation within a process
lifetime. -/
structure RunInput where
  openphoneKey : Bool
  fetchResp : Except String (List Message)
  now : Nat

/-- A sequence of `processMessages` invocations sharing the process-wide
`processedMessageIds` set and `lastProcessedTime` watermark. -/
def runMany (env : Env) : List RunInput → List String → Nat → List String × Nat
  | [], s, t => (s, t)
  | r :: rs, s, t =>
      let out := processMessages env r.openphoneKey r.fetchResp s t r.now
      runMany env rs out.processedIds out.lastProcessedTime

/-- Modelled from the spec: the `\x7bisOrder:false\x7d` half of the contracted
classifier output shape (spec §4.2). -/
def isOrderFalseShape : Json → Bool
  | .obj [("isOrder", .bool false)] => true
  | _ => false

/-- Modelled from the spec: the full order shape of spec §3 — `isOrder`
true with string customer fields, array products/quantities, string
total, an urgency drawn from \x7bnormal, urgent, asap\x7d and a string
extracted text. -/
def isFullOrderShape (j : Json) : Bool :=
  (match jsGetD j "isOrder" with | .bool true => true | _ => false)
  && (jsGetD j "customerName").isStr
  && (jsGetD j "customerPhone").isStr
  && (jsGetD j "products").isArr
  && (jsGetD j "quantities").isArr
  && (jsGetD j "totalAmount").isStr
  && (jsGetD j "specialRequests").isStr
  && (match jsGetD j "urgency" with
      | .str s => s == "normal" || s == "urgent" || s == "asap"
      | _ => false)
  && (jsGetD j "extractedText").isStr

/-- Modelled from the spec: the contracted classifier output shape —
either `\x7bisOrder:false\x7d` or the full order shape. -/
def isContractedShape (j : Json) : Bool :=
  isOrderFalseShape j || isFullOrderShape j

end OrderAutomation

namespace OrderAutomation

/-! ### Basic lemmas about the dedup set and one loop iteration -/

lemma subset_jsSetAdd (s : List String) (x : String) : s ⊆ jsSetAdd s x := by
  unfold jsSetAdd
  split
  · exact fun a ha => ha
  · exact List.subset_append_left s [x]

lemma mem_jsSetAdd_self (s : List String) (x : String) : x ∈ jsSetAdd s x := by
  by_cases h : x ∈ s
  · simp [jsSetAdd, h]
  · simp [jsSetAdd, h]

lemma mem_jsSetAdd_iff (a x : String) (s : List String) :
    a ∈ jsSetAdd s x ↔ a ∈ s ∨ a = x := by
  by_cases h : x ∈ s
  · simp only [jsSetAdd, h, if_true]
    exact ⟨fun h' => Or.inl h', fun h' => h'.elim id (fun e => e ▸ h)⟩
  · simp [jsSetAdd, h]

/-- Every call of `jsGetE` that returns a value returns the total read. -/
lemma jsGetE_ok (j : Json) (k : String) (x : Json) (h : jsGetE j k = Except.ok x) :
    x = jsGetD j k := by
  cases j <;> simp [jsGetE] at h <;> exact h.symm

/-- Exhaustive description of one loop iteration: skip of an
already-processed id, mark-and-skip of a non-inbound message, abort on a
null/undefined classification, fan-out on a detected order, or plain
mark for a non-order. -/
lemma step_cases (env : Env) (s : List String) (m : Message) :
    (m.id ∈ s ∧ processOneMessage env s m = Except.ok (s, [])) ∨
    (m.id ∉ s ∧ processOneMessage env s m =
        Except.ok (jsSetAdd s m.id, [Event.markProcessed m.id])) ∨
    (m.id ∉ s ∧ processOneMessage env s m =
        Except.error (s, [Event.classify m.id])) ∨
    (m.id ∉ s ∧ ∃ lb sb, processOneMessage env s m =
        Except.ok (jsSetAdd s m.id,
          [Event.classify m.id, Event.ledgerCall m.id lb,
           Event.slackCall m.id sb, Event.markProcessed m.id])) ∨
    (m.id ∉ s ∧ processOneMessage env s m =
        Except.ok (jsSetAdd s m.id,
          [Event.classify m.id, Event.markProcessed m.id])) := by
  by_cases h1 : m.id ∈ s
  · exact Or.inl ⟨h1, by simp [processOneMessage, h1]⟩
  · by_cases h2 : m.direction = "inbound"
    · cases hE : jsGetE (analyzeMessageForOrder env.openaiKey (env.classifierResp m.id))
          "isOrder" with
      | error e =>
          exact Or.inr (Or.inr (Or.inl ⟨h1, by simp [processOneMessage, h1, h2, hE]⟩))
      | ok v =>
          by_cases h4 : jsTruthy v
          · refine Or.inr (Or.inr (Or.inr (Or.inl ⟨h1, ?_, ?_, ?_⟩)))
            · exact (logOrderToSheet env.sheetsConfigured (env.appendOk m.id)
                env.locale env.sheetNow
                (analyzeMessageForOrder env.openaiKey (env.classifierResp m.id)) m).1
            · exact sendSlackNotification env.slackConfigured (env.postOk m.id)
                (analyzeMessageForOrder env.openaiKey (env.classifierResp m.id)) m
            · simp [processOneMessage, h1, h2, hE, h4]
          · exact Or.inr (Or.inr (Or.inr (Or.inr ⟨h1,
              by simp [processOneMessage, h1, h2, hE, h4]⟩)))
    · exact Or.inr (Or.inl ⟨h1, by simp [processOneMessage, h1, h2]⟩)

end OrderAutomation

namespace OrderAutomation

/-! ### Consequences of `step_cases` for one iteration -/

lemma step_mono_ok (env : Env) (s : List String) (m : Message)
    (s' : List String) (ev : List Event)
    (h : processOneMessage env s m = Except.ok (s', ev)) : s ⊆ s' := by
  rcases step_cases env s m with ⟨h1, he⟩ | ⟨h1, he⟩ | ⟨h1, he⟩ | ⟨h1, lb, sb, he⟩ | ⟨h1, he⟩ <;>
      rw [he] at h
  · simp only [Except.ok.injEq, Prod.mk.injEq] at h
    exact h.1 ▸ fun a ha => ha
  · simp only [Except.ok.injEq, Prod.mk.injEq] at h
    exact h.1 ▸ subset_jsSetAdd s m.id
  · exact Except.noConfusion h
  · simp only [Except.ok.injEq, Prod.mk.injEq] at h
    exact h.1 ▸ subset_jsSetAdd s m.id
  · simp only [Except.ok.injEq, Prod.mk.injEq] at h
    exact h.1 ▸ subset_jsSetAdd s m.id

lemma step_ok_mem (env : Env) (s : List String) (m : Message)
    (s' : List String) (ev : List Event)
    (h : processOneMessage env s m = Except.ok (s', ev)) : m.id ∈ s' := by
  rcases step_cases env s m with ⟨h1, he⟩ | ⟨h1, he⟩ | ⟨h1, he⟩ | ⟨h1, lb, sb, he⟩ | ⟨h1, he⟩ <;>
      rw [he] at h
  · simp only [Except.ok.injEq, Prod.mk.injEq] at h
    exact h.1 ▸ h1
  · simp only [Except.ok.injEq, Prod.mk.injEq] at h
    exact h.1 ▸ mem_jsSetAdd_self s m.id
  · exact Except.noConfusion h
  · simp only [Except.ok.injEq, Prod.mk.injEq] at h
    exact h.1 ▸ mem_jsSetAdd_self s m.id
  · simp only [Except.ok.injEq, Prod.mk.injEq] at h
    exact h.1 ▸ mem_jsSetAdd_self s m.id

lemma step_err (env : Env) (s : List String) (m : Message)
    (s' : List String) (ev : List Event)
    (h : processOneMessage env s m = Except.error (s', ev)) :
    s' = s ∧ ev = [Event.classify m.id] := by
  rcases step_cases env s m with ⟨h1, he⟩ | ⟨h1, he⟩ | ⟨h1, he⟩ | ⟨h1, lb, sb, he⟩ | ⟨h1, he⟩ <;>
      rw [he] at h
  · exact Except.noConfusion h
  · exact Except.noConfusion h
  · simp only [Except.error.injEq, Prod.mk.injEq] at h
    exact ⟨h.1.symm, h.2.symm⟩
  · exact Except.noConfusion h
  · exact Except.noConfusion h

/-- The condition "newly present in `jsSetAdd s x`" pins down the added
element when it was absent. -/
lemma cond_jsSetAdd (id x : String) (s : List String) (hx : x ∉ s) :
    (id ∈ jsSetAdd s x ∧ id ∉ s) ↔ id = x := by
  rw [mem_jsSetAdd_iff]
  constructor
  · rintro ⟨ha | ha, hb⟩
    · exact absurd ha hb
    · exact ha
  · rintro rfl
    exact ⟨Or.inr rfl, hx⟩

lemma step_count_ok (env : Env) (s : List String) (m : Message)
    (s' : List String) (ev : List Event)
    (h : processOneMessage env s m = Except.ok (s', ev)) (id : String) :
    ev.count (Event.markProcessed id) = if id ∈ s' ∧ id ∉ s then 1 else 0 := by
  rcases step_cases env s m with ⟨h1, he⟩ | ⟨h1, he⟩ | ⟨h1, he⟩ | ⟨h1, lb, sb, he⟩ | ⟨h1, he⟩ <;>
      rw [he] at h
  · simp only [Except.ok.injEq, Prod.mk.injEq] at h
    obtain ⟨hs, hev⟩ := h
    subst hs; subst hev
    simp [List.count_nil]
  · simp only [Except.ok.injEq, Prod.mk.injEq] at h
    obtain ⟨hs, hev⟩ := h
    subst hs; subst hev
    simp only [cond_jsSetAdd id m.id s h1]
    by_cases hid : id = m.id <;>
      simp [List.count_cons, List.count_nil, hid]
  · exact Except.noConfusion h
  · simp only [Except.ok.injEq, Prod.mk.injEq] at h
    obtain ⟨hs, hev⟩ := h
    subst hs; subst hev
    simp only [cond_jsSetAdd id m.id s h1]
    by_cases hid : id = m.id <;>
      simp [List.count_cons, List.count_nil, hid]
  · simp only [Except.ok.injEq, Prod.mk.injEq] at h
    obtain ⟨hs, hev⟩ := h
    subst hs; subst hev
    simp only [cond_jsSetAdd id m.id s h1]
    by_cases hid : id = m.id <;>
      simp [List.count_cons, List.count_nil, hid]

end OrderAutomation

namespace OrderAutomation

/-! ### Lemmas about the batch loop -/

lemma runLoop_nil (env : Env) (s : List String) (evs : List Event) :
    runLoop env [] s evs = Except.ok (s, evs) := rfl

lemma runLoop_cons (env : Env) (m : Message) (rest : List Message)
    (s : List String) (evs : List Event) :
    runLoop env (m :: rest) s evs =
      match processOneMessage env s m with
      | .error (s2, ev) => .error (s2, evs ++ ev)
      | .ok (s2, ev) => runLoop env rest s2 (evs ++ ev) := rfl

lemma runLoop_ok_mono (env : Env) (ms : List Message) :
    ∀ (s : List String) (evs : List Event) (s' : List String) (evs' : List Event),
      runLoop env ms s evs = Except.ok (s', evs') → s ⊆ s' := by
  induction ms with
  | nil =>
      intro s evs s' evs' h
      rw [runLoop_nil] at h
      simp only [Except.ok.injEq, Prod.mk.injEq] at h
      exact h.1 ▸ fun a ha => ha
  | cons m0 rest ih =>
      intro s evs s' evs' h
      rw [runLoop_cons] at h
      cases hstep : processOneMessage env s m0 with
      | error r =>
          rw [hstep] at h
          obtain ⟨s2, ev⟩ := r
          exact Except.noConfusion h
      | ok r =>
          obtain ⟨s2, ev⟩ := r
          rw [hstep] at h
          exact (step_mono_ok env s m0 s2 ev hstep).trans
            (ih s2 (evs ++ ev) s' evs' h)

lemma runLoop_err_mono (env : Env) (ms : List Message) :
    ∀ (s : List String) (evs : List Event) (s' : List String) (evs' : List Event),
      runLoop env ms s evs = Except.error (s', evs') → s ⊆ s' := by
  induction ms with
  | nil =>
      intro s evs s' evs' h
      rw [runLoop_nil] at h
      exact Except.noConfusion h
  | cons m0 rest ih =>
      intro s evs s' evs' h
      rw [runLoop_cons] at h
      cases hstep : processOneMessage env s m0 with
      | error r =>
          obtain ⟨s2, ev⟩ := r
          rw [hstep] at h
          simp only [Except.error.injEq, Prod.mk.injEq] at h
          obtain ⟨hs2, hs⟩ := step_err env s m0 s2 ev hstep
          exact (h.1 ▸ hs2) ▸ fun a ha => ha
      | ok r =>
          obtain ⟨s2, ev⟩ := r
          rw [hstep] at h
          exact (step_mono_ok env s m0 s2 ev hstep).trans
            (ih s2 (evs ++ ev) s' evs' h)

lemma runLoop_ok_mem (env : Env) (ms : List Message) :
    ∀ (s : List String) (evs : List Event) (s' : List String) (evs' : List Event),
      runLoop env ms s evs = Except.ok (s', evs') → ∀ m ∈ ms, m.id ∈ s' := by
  induction ms with
  | nil =>
      intro s evs s' evs' _ m hm
      exact absurd hm (List.not_mem_nil m)
  | cons m0 rest ih =>
      intro s evs s' evs' h m hm
      rw [runLoop_cons] at h
      cases hstep : processOneMessage env s m0 with
      | error r =>
          obtain ⟨s2, ev⟩ := r
          rw [hstep] at h
          exact Except.noConfusion h
      | ok r =>
          obtain ⟨s2, ev⟩ := r
          rw [hstep] at h
          rcases List.mem_cons.mp hm with hm0 | hm'
          · exact runLoop_ok_mono env rest s2 (evs ++ ev) s' evs' h
              (hm0 ▸ step_ok_mem env s m0 s2 ev hstep)
          · exact ih s2 (evs ++ ev) s' evs' h m hm'

lemma count_if_chain (id : String) (s s2 s' : List String)
    (h1 : s ⊆ s2) (h2 : s2 ⊆ s') :
    ((if id ∈ s2 ∧ id ∉ s then 1 else 0) : Nat)
      + (if id ∈ s' ∧ id ∉ s2 then 1 else 0)
      = if id ∈ s' ∧ id ∉ s then 1 else 0 := by
  by_cases a : id ∈ s <;> by_cases b : id ∈ s2 <;> by_cases c : id ∈ s'
  all_goals first
    | exact absurd (h1 a) b
    | exact absurd (h2 b) c
    | simp [a, b, c]

lemma runLoop_ok_count (env : Env) (ms : List Message) :
    ∀ (s : List String) (evs : List Event) (s' : List String) (evs' : List Event),
      runLoop env ms s evs = Except.ok (s', evs') → ∀ id : String,
        evs'.count (Event.markProcessed id)
          = evs.count (Event.markProcessed id)
            + (if id ∈ s' ∧ id ∉ s then 1 else 0) := by
  induction ms with
  | nil =>
      intro s evs s' evs' h id
      rw [runLoop_nil] at h
      simp only [Except.ok.injEq, Prod.mk.injEq] at h
      obtain ⟨hs, hev⟩ := h
      subst hs; subst hev
      simp
  | cons m0 rest ih =>
      intro s evs s' evs' h id
      rw [runLoop_cons] at h
      cases hstep : processOneMessage env s m0 with
      | error r =>
          obtain ⟨s2, ev⟩ := r
          rw [hstep] at h
          exact Except.noConfusion h
      | ok r =>
          obtain ⟨s2, ev⟩ := r
          rw [hstep] at h
          have hmono1 := step_mono_ok env s m0 s2 ev hstep
          have hmono2 := runLoop_ok_mono env rest s2 (evs ++ ev) s' evs' h
          have hcount := step_count_ok env s m0 s2 ev hstep id
          rw [ih s2 (evs ++ ev) s' evs' h id, List.count_append, hcount,
            Nat.add_assoc, count_if_chain id s s2 s' hmono1 hmono2]

/-! ### Run-level consequences -/

lemma processMessages_of_ok (env : Env) (key : Bool)
    (resp : Except String (List Message)) (s0 : List String) (t0 now : Nat)
    (s' : List String) (evs' : List Event)
    (h : runLoop env (fetchOpenPhoneMessages key resp) s0 [] = Except.ok (s', evs')) :
    processMessages env key resp s0 t0 now =
      { processedIds := s', lastProcessedTime := now,
        events := evs', retVal := Json.undefined } := by
  unfold processMessages
  rw [h]

lemma processMessages_of_err (env : Env) (key : Bool)
    (resp : Except String (List Message)) (s0 : List String) (t0 now : Nat)
    (s' : List String) (evs' : List Event)
    (h : runLoop env (fetchOpenPhoneMessages key resp) s0 [] = Except.error (s', evs')) :
    processMessages env key resp s0 t0 now =
      { processedIds := s', lastProcessedTime := t0,
        events := evs', retVal := Json.undefined } := by
  unfold processMessages
  rw [h]

lemma processMessages_mono (env : Env) (key : Bool)
    (resp : Except String (List Message)) (s0 : List String) (t0 now : Nat) :
    s0 ⊆ (processMessages env key resp s0 t0 now).processedIds := by
  cases h : runLoop env (fetchOpenPhoneMessages key resp) s0 [] with
  | ok r =>
      obtain ⟨s', evs'⟩ := r
      rw [processMessages_of_ok env key resp s0 t0 now s' evs' h]
      exact runLoop_ok_mono env _ s0 [] s' evs' h
  | error r =>
      obtain ⟨s', evs'⟩ := r
      rw [processMessages_of_err env key resp s0 t0 now s' evs' h]
      exact runLoop_err_mono env _ s0 [] s' evs' h

end OrderAutomation

namespace OrderAutomation

/-! ### Concrete fixtures used by counterexamples and witnesses -/

/-- A full order judgment of the contracted shape. -/
def orderJson : Json := Json.obj
  [("isOrder", Json.bool true),
   ("customerName", Json.str "Jane"),
   ("customerPhone", Json.str "555-1234"),
   ("products", Json.arr [Json.str "oysters"]),
   ("quantities", Json.arr [Json.str "2 dozen"]),
   ("totalAmount", Json.str "TBD"),
   ("specialRequests", Json.str ""),
   ("urgency", Json.str "normal"),
   ("extractedText", Json.str "2 dozen oysters")]

/-- A fully configured environment whose classifier reports no order and
whose sinks succeed. -/
def envBase : Env :=
  { openaiKey := true,
    classifierResp := fun _ => Except.ok (Json.obj [("isOrder", Json.bool false)]),
    sheetsConfigured := true,
    appendOk := fun _ => true,
    slackConfigured := true,
    postOk := fun _ => true,
    locale := fun _ _ => "ts",
    sheetNow := 0 }

/-- `envBase` with an order detected and the ledger append failing while
the alert succeeds. -/
def envLedgerFail : Env :=
  { envBase with
    classifierResp := fun _ => Except.ok orderJson,
    appendOk := fun _ => false }

/-- `envBase` with an order detected and both sink deliveries failing. -/
def envBothFail : Env :=
  { envBase with
    classifierResp := fun _ => Except.ok orderJson,
    appendOk := fun _ => false,
    postOk := fun _ => false }

/-- `envBase` with a classifier answering valid JSON that is not of the
contracted shape. -/
def envWrongShape : Env :=
  { envBase with
    classifierResp := fun _ => Except.ok (Json.obj [("foo", Json.num 1)]) }

/-- An inbound message. -/
def msgIn : Message :=
  { id := "m1", direction := "inbound", «from» := "+15551234",
    body := "2 dozen oysters for pickup tomorrow", createdAt := 3 }

/-- An outbound message. -/
def msgOut : Message :=
  { id := "m2", direction := "outbound", «from» := "+15550000",
    body := "thanks, see you then", createdAt := 4 }

/-- An inbound message whose id is already processed in the `C2` witness
scenario. -/
def msgPrev : Message :=
  { id := "m0", direction := "inbound", «from» := "+15559999",
    body := "what are your hours?", createdAt := 2 }

/-! ### Claims -/

/-- C1, counterexample. The claim says a failing fetch leaves the
watermark (`lastProcessedTime`) unchanged. In the code
`fetchOpenPhoneMessages` catches the error and returns `[]`, so
`processMessages` completes normally and still executes
`lastProcessedTime = new Date()`: starting from watermark 5 with a
failing fetch at time 9, the watermark after the run is 9, not 5
(`processedIds` is indeed unchanged). -/
theorem claim_C1_counterexample :
    (processMessages envBase true (Except.error "Request failed with status code 401")
        ["x"] 5 9).lastProcessedTime = 9 ∧
    (processMessages envBase true (Except.error "Request failed with status code 401")
        ["x"] 5 9).lastProcessedTime ≠ 5 ∧
    (processMessages envBase true (Except.error "Request failed with status code 401")
        ["x"] 5 9).processedIds = ["x"] :=
  ⟨rfl, by decide, rfl⟩

/-- C1, amended: when the fetch call fails, the error is caught inside
`fetchOpenPhoneMessages`, which returns an empty batch; the run then
processes no messages — `processedIds` is not mutated and no classifier
or sink is invoked — but the run does not abort: the watermark is still
advanced to `now`. -/
theorem claim_C1_amended (env : Env) (key : Bool) (e : String)
    (s0 : List String) (t0 now : Nat) :
    processMessages env key (Except.error e) s0 t0 now =
      { processedIds := s0, lastProcessedTime := now,
        events := [], retVal := Json.undefined } := by
  cases key <;> rfl

/-- C2, counterexample. The claim says every id in the batch "was added
exactly once during the run". For a batch containing a message whose id
is already in `processedIds`, the loop skips it before reaching the
`add` call, so it is added zero times (it is a member at the end only
because it already was one). -/
theorem claim_C2_counterexample :
    "m1" ∈ (processMessages envBase true (Except.ok [msgIn]) ["m1"] 0 1).processedIds ∧
    (processMessages envBase true (Except.ok [msgIn]) ["m1"] 0 1).events.count
        (Event.markProcessed "m1") = 0 :=
  ⟨by decide, by decide⟩

/-- C2, amended: provided the loop completes the batch (which it does
unless some classifier response parses to JSON `null`, making the
`analysis.isOrder` read throw and abort the rest of the batch), every
id of the batch is a member of `processedIds` at the end of the run;
an id not in `processedIds` at the start of the run is added exactly
once, and an id already present is added zero times — in either case
regardless of classification and sink outcomes. -/
theorem claim_C2_amended (env : Env) (key : Bool)
    (resp : Except String (List Message)) (s0 : List String) (t0 now : Nat)
    (s' : List String) (evs' : List Event)
    (hok : runLoop env (fetchOpenPhoneMessages key resp) s0 [] = Except.ok (s', evs')) :
    ∀ m ∈ fetchOpenPhoneMessages key resp,
      m.id ∈ (processMessages env key resp s0 t0 now).processedIds ∧
      (processMessages env key resp s0 t0 now).events.count (Event.markProcessed m.id)
        = (if m.id ∈ s0 then 0 else 1) := by
  intro m hm
  rw [processMessages_of_ok env key resp s0 t0 now s' evs' hok]
  have hmem := runLoop_ok_mem env _ s0 [] s' evs' hok m hm
  refine ⟨hmem, ?_⟩
  rw [runLoop_ok_count env _ s0 [] s' evs' hok m.id]
  simp only [List.count_nil, Nat.zero_add]
  by_cases hs0 : m.id ∈ s0
  · simp [hs0]
  · simp [hs0, hmem]

/-- C2, witness: a two-message batch in which "m1" is new (added exactly
once) and "m0" was already processed before the run. -/
theorem claim_C2_witness :
    ("m1" ∈ (processMessages envBase true (Except.ok [msgIn, msgPrev])
        ["m0"] 0 1).processedIds ∧
     (processMessages envBase true (Except.ok [msgIn, msgPrev]) ["m0"] 0 1).events.count
        (Event.markProcessed "m1") = (if "m1" ∈ (["m0"] : List String) then 0 else 1)) ∧
    ("m0" ∈ (processMessages envBase true (Except.ok [msgIn, msgPrev])
        ["m0"] 0 1).processedIds ∧
     (processMessages envBase true (Except.ok [msgIn, msgPrev]) ["m0"] 0 1).events.count
        (Event.markProcessed "m0") = (if "m0" ∈ (["m0"] : List String) then 0 else 1)) :=
  ⟨claim_C2_amended envBase true (Except.ok [msgIn, msgPrev]) ["m0"] 0 1
      ["m0", "m1"] [Event.classify "m1", Event.markProcessed "m1"] rfl msgIn (by decide),
   claim_C2_amended envBase true (Except.ok [msgIn, msgPrev]) ["m0"] 0 1
      ["m0", "m1"] [Event.classify "m1", Event.markProcessed "m1"] rfl msgPrev (by decide)⟩

/-- C3, counterexample. The claim says `run()` returns a summary with
counts and that a failed ledger append is reported in that summary. In
the code `processMessages` has no return statement: the async function
resolves with `undefined` on every path. Here an order is detected, the
ledger append fails (the trace records a failed ledger call), yet the
returned value is `undefined` — not an object carrying any counts. -/
theorem claim_C3_counterexample :
    (processMessages envLedgerFail true (Except.ok [msgIn]) [] 0 1).events.count
        (Event.ledgerCall "m1" false) = 1 ∧
    "m1" ∈ (processMessages envLedgerFail true (Except.ok [msgIn]) [] 0 1).processedIds ∧
    (processMessages envLedgerFail true (Except.ok [msgIn]) [] 0 1).retVal = Json.undefined ∧
    Json.isObj (processMessages envLedgerFail true (Except.ok [msgIn]) [] 0 1).retVal
      = false :=
  ⟨by decide, by decide, rfl, rfl⟩

/-- C3, amended: `processMessages` returns no summary at all — it
resolves with `undefined` on every invocation (counts of processed
messages, detected orders and sink failures are only logged to the
console, never returned). -/
theorem claim_C3_amended (env : Env) (key : Bool)
    (resp : Except String (List Message)) (s0 : List String) (t0 now : Nat) :
    (processMessages env key resp s0 t0 now).retVal = Json.undefined ∧
    Json.isObj (processMessages env key resp s0 t0 now).retVal = false := by
  cases h : runLoop env (fetchOpenPhoneMessages key resp) s0 [] with
  | ok r =>
      obtain ⟨s', evs'⟩ := r
      rw [processMessages_of_ok env key resp s0 t0 now s' evs' h]
      exact ⟨rfl, rfl⟩
  | error r =>
      obtain ⟨s', evs'⟩ := r
      rw [processMessages_of_err env key resp s0 t0 now s' evs' h]
      exact ⟨rfl, rfl⟩

end OrderAutomation

namespace OrderAutomation

/-- A loop-body throw can only come from the `analysis.isOrder` read. -/
lemma step_err_reason (env : Env) (s : List String) (m : Message)
    (s' : List String) (ev : List Event)
    (h : processOneMessage env s m = Except.error (s', ev)) :
    ∃ e, jsGetE (analyzeMessageForOrder env.openaiKey (env.classifierResp m.id))
        "isOrder" = Except.error e := by
  by_cases h1 : m.id ∈ s
  · simp [processOneMessage, h1] at h
  · by_cases h2 : m.direction = "inbound"
    · cases hE : jsGetE (analyzeMessageForOrder env.openaiKey (env.classifierResp m.id))
          "isOrder" with
      | error e => exact ⟨e, rfl⟩
      | ok v =>
          exfalso
          by_cases h4 : jsTruthy v <;>
            simp [processOneMessage, h1, h2, hE, h4] at h
    · simp [processOneMessage, h1, h2] at h

/-- C4, counterexample. The claim says any response not parseable as the
contracted shape is normalized to `\x7bisOrder:false\x7d`. The code only
falls back on a *thrown* error (transport failure or `JSON.parse`
failure); a successfully parsed value is returned verbatim. The valid
JSON object `\x7b"foo":1\x7d` is not of the contracted shape, yet `classify`
returns it unchanged instead of `\x7bisOrder:false\x7d`. -/
theorem claim_C4_counterexample :
    isContractedShape (Json.obj [("foo", Json.num 1)]) = false ∧
    analyzeMessageForOrder true (Except.ok (Json.obj [("foo", Json.num 1)]))
      ≠ Json.obj [("isOrder", Json.bool false)] := by
  refine ⟨rfl, fun h => ?_⟩
  have h2 := congrArg (fun j => jsGetD j "isOrder") h
  have h3 : Json.undefined = Json.bool false := h2
  exact Json.noConfusion h3

/-- C4, amended: a thrown classifier failure (transport error or
unparseable content) is normalized to `\x7bisOrder:false\x7d`; a response that
parses as any JSON value is returned as-is, without shape validation.
Downstream, for any parsed value other than JSON `null` (and the
unreachable `undefined`), the run is not aborted and the message is
still marked processed: wrong-shape values simply have a falsy
`isOrder` field and are treated as "no order". (A parsed `null` instead
makes the `analysis.isOrder` read throw, aborting the rest of the
batch.) -/
theorem claim_C4_amended :
    (∀ (k : Bool) (e : String),
        analyzeMessageForOrder k (Except.error e)
          = Json.obj [("isOrder", Json.bool false)]) ∧
    (∀ j : Json, analyzeMessageForOrder true (Except.ok j) = j) ∧
    (∀ (env : Env) (s : List String) (m : Message) (j : Json),
        m.id ∉ s → m.direction = "inbound" →
        env.classifierResp m.id = Except.ok j → env.openaiKey = true →
        j ≠ Json.null → j ≠ Json.undefined →
        ∃ s' evs, processOneMessage env s m = Except.ok (s', evs) ∧ m.id ∈ s') := by
  refine ⟨?_, ?_, ?_⟩
  · intro k e; cases k <;> rfl
  · intro j; rfl
  · intro env s m j h1 h2 hresp hkey hnull hundef
    rcases step_cases env s m with ⟨hd, he⟩ | ⟨hd, he⟩ | ⟨hd, he⟩ | ⟨hd, lb, sb, he⟩ | ⟨hd, he⟩
    · exact absurd hd h1
    · exact ⟨_, _, he, mem_jsSetAdd_self s m.id⟩
    · exfalso
      obtain ⟨e, hEerr⟩ := step_err_reason env s m _ _ he
      have hana : analyzeMessageForOrder env.openaiKey (env.classifierResp m.id) = j := by
        rw [hkey, hresp]
        rfl
      rw [hana] at hEerr
      cases j <;>
        first
          | exact hnull rfl
          | exact hundef rfl
          | simp [jsGetE] at hEerr
    · exact ⟨_, _, he, mem_jsSetAdd_self s m.id⟩
    · exact ⟨_, _, he, mem_jsSetAdd_self s m.id⟩

/-- C4, witness: a transport error falls back to `\x7bisOrder:false\x7d`, and a
wrong-shape (but non-null) parsed response still lets the run mark the
message processed. -/
theorem claim_C4_witness :
    analyzeMessageForOrder true (Except.error "socket hang up")
        = Json.obj [("isOrder", Json.bool false)] ∧
    (∃ s' evs, processOneMessage envWrongShape [] msgIn = Except.ok (s', evs) ∧
        "m1" ∈ s') :=
  ⟨claim_C4_amended.1 true "socket hang up",
   claim_C4_amended.2.2 envWrongShape [] msgIn (Json.obj [("foo", Json.num 1)])
     (by decide) rfl rfl rfl
     (fun h => Json.noConfusion h) (fun h => Json.noConfusion h)⟩

/-- C5: for a fresh inbound message whose classification has a truthy
`isOrder`, the loop body invokes the ledger append and the alert
notification unconditionally and independently — the environment (hence
each sink's success or failure) is arbitrary, and both calls are
recorded with whatever outcome each produced — the message id is added
to `processedIds`, and the loop continues with the next message. -/
theorem claim_C5_confirmed (env : Env) (s : List String) (m : Message) (v : Json)
    (h1 : m.id ∉ s) (h2 : m.direction = "inbound")
    (h3 : jsGetE (analyzeMessageForOrder env.openaiKey (env.classifierResp m.id))
        "isOrder" = Except.ok v)
    (h4 : jsTruthy v = true) :
    processOneMessage env s m = Except.ok (jsSetAdd s m.id,
      [Event.classify m.id,
       Event.ledgerCall m.id (logOrderToSheet env.sheetsConfigured (env.appendOk m.id)
         env.locale env.sheetNow
         (analyzeMessageForOrder env.openaiKey (env.classifierResp m.id)) m).1,
       Event.slackCall m.id (sendSlackNotification env.slackConfigured (env.postOk m.id)
         (analyzeMessageForOrder env.openaiKey (env.classifierResp m.id)) m),
       Event.markProcessed m.id]) ∧
    m.id ∈ jsSetAdd s m.id ∧
    (∀ (rest : List Message) (evs : List Event),
      runLoop env (m :: rest) s evs
        = runLoop env rest (jsSetAdd s m.id)
            (evs ++
             [Event.classify m.id,
              Event.ledgerCall m.id (logOrderToSheet env.sheetsConfigured
                (env.appendOk m.id) env.locale env.sheetNow
                (analyzeMessageForOrder env.openaiKey (env.classifierResp m.id)) m).1,
              Event.slackCall m.id (sendSlackNotification env.slackConfigured
                (env.postOk m.id)
                (analyzeMessageForOrder env.openaiKey (env.classifierResp m.id)) m),
              Event.markProcessed m.id])) := by
  have hstep : processOneMessage env s m = Except.ok (jsSetAdd s m.id,
      [Event.classify m.id,
       Event.ledgerCall m.id (logOrderToSheet env.sheetsConfigured (env.appendOk m.id)
         env.locale env.sheetNow
         (analyzeMessageForOrder env.openaiKey (env.classifierResp m.id)) m).1,
       Event.slackCall m.id (sendSlackNotification env.slackConfigured (env.postOk m.id)
         (analyzeMessageForOrder env.openaiKey (env.classifierResp m.id)) m),
       Event.markProcessed m.id]) := by
    simp [processOneMessage, h1, h2, h3, h4]
  refine ⟨hstep, mem_jsSetAdd_self s m.id, fun rest evs => ?_⟩
  rw [runLoop_cons, hstep]

/-- C5, witness: both sinks fail, yet both are attempted, the message is
marked processed and the loop proceeds. -/
theorem claim_C5_witness :
    processOneMessage envBothFail [] msgIn = Except.ok (["m1"],
      [Event.classify "m1", Event.ledgerCall "m1" false,
       Event.slackCall "m1" false, Event.markProcessed "m1"]) ∧
    "m1" ∈ (["m1"] : List String) ∧
    runLoop envBothFail [msgIn] [] []
      = runLoop envBothFail [] ["m1"]
          [Event.classify "m1", Event.ledgerCall "m1" false,
           Event.slackCall "m1" false, Event.markProcessed "m1"] := by
  obtain ⟨hs, hm, hr⟩ :=
    claim_C5_confirmed envBothFail [] msgIn (Json.bool true) (by decide) rfl rfl rfl
  exact ⟨hs, hm, hr [] []⟩

/-- C6: a message whose id is already in `processedIds` is skipped with
no classifier call, no sink call, no event at all and no state change. -/
theorem claim_C6_confirmed (env : Env) (s : List String) (m : Message)
    (h : m.id ∈ s) : processOneMessage env s m = Except.ok (s, []) := by
  simp [processOneMessage, h]

/-- C6, witness. -/
theorem claim_C6_witness :
    processOneMessage envBase ["m1"] msgIn = Except.ok (["m1"], []) :=
  claim_C6_confirmed envBase ["m1"] msgIn (by decide)

/-- C7: a non-inbound message produces no classifier and no sink event —
at most a `markProcessed` — and its id is a member of `processedIds`
afterwards (freshly appended when absent). -/
theorem claim_C7_confirmed (env : Env) (s : List String) (m : Message)
    (h : m.direction ≠ "inbound") :
    processOneMessage env s m
        = Except.ok (jsSetAdd s m.id,
            if m.id ∈ s then ([] : List Event) else [Event.markProcessed m.id]) ∧
    m.id ∈ jsSetAdd s m.id := by
  refine ⟨?_, mem_jsSetAdd_self s m.id⟩
  by_cases hdup : m.id ∈ s
  · simp [processOneMessage, hdup, jsSetAdd]
  · simp [processOneMessage, hdup, h]

/-- C7, witness. -/
theorem claim_C7_witness :
    processOneMessage envBase [] msgOut
        = Except.ok (jsSetAdd [] "m2",
            if "m2" ∈ ([] : List String) then ([] : List Event)
            else [Event.markProcessed "m2"]) ∧
    "m2" ∈ jsSetAdd [] "m2" :=
  claim_C7_confirmed envBase [] msgOut (by decide)

end OrderAutomation

namespace OrderAutomation

/-- A successful `join` call pins its receiver to an array. -/
lemma jsJoin_ok_isArr (v : Json) (sep x : String) (h : jsJoin v sep = Except.ok x) :
    v.isArr = true := by
  cases v <;> simp [jsJoin, Json.isArr] at h ⊢

/-- A successful `toUpperCase` call pins its receiver to a string. -/
lemma jsToUpperCase_ok_isStr (v : Json) (x : String)
    (h : jsToUpperCase v = Except.ok x) : v.isStr = true := by
  cases v <;> simp [jsToUpperCase, Json.isStr] at h ⊢

/-- Shape of every row successfully built by `logRow`. -/
lemma logRow_ok (locale : String → Nat → String) (now : Nat) (orderData : Json)
    (msg : Message) (row : List Json)
    (h : logRow locale now orderData msg = Except.ok row) :
    ∃ p q, jsJoin (jsGetD orderData "products") ", " = Except.ok p ∧
           jsJoin (jsGetD orderData "quantities") ", " = Except.ok q ∧
      row = [Json.str (locale CONFIG_TIMEZONE now),
             jsGetD orderData "customerName", jsGetD orderData "customerPhone",
             Json.str p, Json.str q,
             jsGetD orderData "totalAmount", jsGetD orderData "specialRequests",
             jsGetD orderData "urgency",
             Json.str msg.body, Json.str msg.id, Json.str "Pending"] := by
  unfold logRow at h
  cases h1 : jsGetE orderData "customerName" with
  | error e =>
      simp only [h1] at h
      exact Except.noConfusion h
  | ok name =>
  simp only [h1] at h
  cases h2 : jsGetE orderData "customerPhone" with
  | error e =>
      simp only [h2] at h
      exact Except.noConfusion h
  | ok phone =>
  simp only [h2] at h
  cases h3 : jsGetE orderData "products" with
  | error e =>
      simp only [h3] at h
      exact Except.noConfusion h
  | ok products =>
  simp only [h3] at h
  cases h4 : jsJoin products ", " with
  | error e =>
      simp only [h4] at h
      exact Except.noConfusion h
  | ok p =>
  simp only [h4] at h
  cases h5 : jsGetE orderData "quantities" with
  | error e =>
      simp only [h5] at h
      exact Except.noConfusion h
  | ok quantities =>
  simp only [h5] at h
  cases h6 : jsJoin quantities ", " with
  | error e =>
      simp only [h6] at h
      exact Except.noConfusion h
  | ok q =>
  simp only [h6] at h
  cases h7 : jsGetE orderData "totalAmount" with
  | error e =>
      simp only [h7] at h
      exact Except.noConfusion h
  | ok total =>
  simp only [h7] at h
  cases h8 : jsGetE orderData "specialRequests" with
  | error e =>
      simp only [h8] at h
      exact Except.noConfusion h
  | ok special =>
  simp only [h8] at h
  cases h9 : jsGetE orderData "urgency" with
  | error e =>
      simp only [h9] at h
      exact Except.noConfusion h
  | ok urg =>
  simp only [h9, Except.ok.injEq] at h
  refine ⟨p, q, ?_, ?_, ?_⟩
  · rw [← jsGetE_ok orderData "products" products h3]
    exact h4
  · rw [← jsGetE_ok orderData "quantities" quantities h5]
    exact h6
  · rw [← h, jsGetE_ok orderData "customerName" name h1,
      jsGetE_ok orderData "customerPhone" phone h2,
      jsGetE_ok orderData "totalAmount" total h7,
      jsGetE_ok orderData "specialRequests" special h8,
      jsGetE_ok orderData "urgency" urg h9]

/-- C8: every call of `logOrderToSheet` that reports success appended
exactly one row, whose columns are, in order: the timestamp localized to
the configured timezone, customer name, customer phone, the joined
products, the joined quantities, total amount, special requests,
urgency, the original message body, the message id, and the fixed
initial status "Pending" as the last field. -/
theorem claim_C8_confirmed (cfg ok : Bool) (locale : String → Nat → String)
    (now : Nat) (orderData : Json) (msg : Message) (rows : List (List Json))
    (h : logOrderToSheet cfg ok locale now orderData msg = (true, rows)) :
    ∃ p q, jsJoin (jsGetD orderData "products") ", " = Except.ok p ∧
           jsJoin (jsGetD orderData "quantities") ", " = Except.ok q ∧
      rows = [[Json.str (locale CONFIG_TIMEZONE now),
               jsGetD orderData "customerName", jsGetD orderData "customerPhone",
               Json.str p, Json.str q,
               jsGetD orderData "totalAmount", jsGetD orderData "specialRequests",
               jsGetD orderData "urgency",
               Json.str msg.body, Json.str msg.id, Json.str "Pending"]] ∧
      rows.length = 1 := by
  unfold logOrderToSheet at h
  cases cfg with
  | false => simp at h
  | true =>
    simp only [Bool.not_true, Bool.false_eq_true, if_false] at h
    cases hrow : logRow locale now orderData msg with
    | error e => simp only [hrow] at h; simp at h
    | ok row =>
      simp only [hrow] at h
      cases ok with
      | false => simp at h
      | true =>
        simp only [if_true, Prod.mk.injEq] at h
        obtain ⟨p, q, hp, hq, hshape⟩ := logRow_ok locale now orderData msg row hrow
        refine ⟨p, q, hp, hq, ?_, ?_⟩
        · rw [← h.2, hshape]
        · rw [← h.2]
          rfl

/-- C8, witness: a successful append of a well-formed order produces the
specified single row. -/
theorem claim_C8_witness :
    ∃ p q, jsJoin (jsGetD orderJson "products") ", " = Except.ok p ∧
           jsJoin (jsGetD orderJson "quantities") ", " = Except.ok q ∧
      ([[Json.str "ts", jsGetD orderJson "customerName", jsGetD orderJson "customerPhone",
         Json.str "oysters", Json.str "2 dozen",
         jsGetD orderJson "totalAmount", jsGetD orderJson "specialRequests",
         jsGetD orderJson "urgency",
         Json.str "2 dozen oysters for pickup tomorrow", Json.str "m1",
         Json.str "Pending"]] : List (List Json))
        = [[Json.str "ts", jsGetD orderJson "customerName", jsGetD orderJson "customerPhone",
            Json.str p, Json.str q,
            jsGetD orderJson "totalAmount", jsGetD orderJson "specialRequests",
            jsGetD orderJson "urgency",
            Json.str "2 dozen oysters for pickup tomorrow", Json.str "m1",
            Json.str "Pending"]] ∧
      ([[Json.str "ts", jsGetD orderJson "customerName", jsGetD orderJson "customerPhone",
         Json.str "oysters", Json.str "2 dozen",
         jsGetD orderJson "totalAmount", jsGetD orderJson "specialRequests",
         jsGetD orderJson "urgency",
         Json.str "2 dozen oysters for pickup tomorrow", Json.str "m1",
         Json.str "Pending"]] : List (List Json)).length = 1 :=
  claim_C8_confirmed true true (fun _ _ => "ts") 0 orderJson msgIn
    [[Json.str "ts", jsGetD orderJson "customerName", jsGetD orderJson "customerPhone",
      Json.str "oysters", Json.str "2 dozen",
      jsGetD orderJson "totalAmount", jsGetD orderJson "specialRequests",
      jsGetD orderJson "urgency",
      Json.str "2 dozen oysters for pickup tomorrow", Json.str "m1",
      Json.str "Pending"]] rfl

end OrderAutomation

namespace OrderAutomation

/-- C9: `processedIds` is monotone non-decreasing — no operation of the
service ever removes an id: one run, and any sequence of runs within a
process lifetime, only extend the set. -/
theorem claim_C9_confirmed :
    (∀ (env : Env) (key : Bool) (resp : Except String (List Message))
        (s0 : List String) (t0 now : Nat),
        s0 ⊆ (processMessages env key resp s0 t0 now).processedIds) ∧
    (∀ (env : Env) (rs : List RunInput) (s0 : List String) (t0 : Nat),
        s0 ⊆ (runMany env rs s0 t0).1) := by
  refine ⟨fun env key resp s0 t0 now => processMessages_mono env key resp s0 t0 now, ?_⟩
  intro env rs
  induction rs with
  | nil => exact fun s0 t0 a ha => ha
  | cons r rest ih =>
      intro s0 t0
      exact (processMessages_mono env r.openphoneKey r.fetchResp s0 t0 r.now).trans
        (ih _ _)

/-- C9, witness: an id processed before a sequence of runs is still in
the set afterwards. -/
theorem claim_C9_witness :
    "a" ∈ (runMany envBase
        [{ openphoneKey := true, fetchResp := Except.ok [msgIn], now := 7 },
         { openphoneKey := true, fetchResp := Except.error "ECONNRESET", now := 8 }]
        ["a"] 0).1 :=
  claim_C9_confirmed.2 envBase
    [{ openphoneKey := true, fetchResp := Except.ok [msgIn], now := 7 },
     { openphoneKey := true, fetchResp := Except.error "ECONNRESET", now := 8 }]
    ["a"] 0 (by decide)

/-- A `logRow` call on data whose `products` field is not an array always
throws. -/
lemma logRow_err_products (locale : String → Nat → String) (now : Nat)
    (orderData : Json) (msg : Message)
    (hp : (jsGetD orderData "products").isArr = false) :
    ∃ e, logRow locale now orderData msg = Except.error e := by
  unfold logRow
  cases h1 : jsGetE orderData "customerName" with
  | error e => exact ⟨e, by simp only [h1]⟩
  | ok name =>
  cases h2 : jsGetE orderData "customerPhone" with
  | error e => exact ⟨e, by simp only [h1, h2]⟩
  | ok phone =>
  cases h3 : jsGetE orderData "products" with
  | error e => exact ⟨e, by simp only [h1, h2, h3]⟩
  | ok products =>
  cases h4 : jsJoin products ", " with
  | error e => exact ⟨e, by simp only [h1, h2, h3, h4]⟩
  | ok p =>
      exfalso
      have harr := jsJoin_ok_isArr products ", " p h4
      rw [jsGetE_ok orderData "products" products h3] at harr
      rw [harr] at hp
      exact Bool.noConfusion hp

/-- A `slackChecks` call on data whose `urgency` field is not a string
always throws. -/
lemma slackChecks_err_urgency (orderData : Json)
    (hu : (jsGetD orderData "urgency").isStr = false) :
    ∃ e, slackChecks orderData = Except.error e := by
  unfold slackChecks
  cases h1 : jsGetE orderData "urgency" with
  | error e => exact ⟨e, by simp only [h1]⟩
  | ok urgForEmoji =>
  cases h2 : jsGetE orderData "customerName" with
  | error e => exact ⟨e, by simp only [h1, h2]⟩
  | ok name =>
  cases h3 : jsGetE orderData "customerPhone" with
  | error e => exact ⟨e, by simp only [h1, h2, h3]⟩
  | ok phone =>
  cases h4 : jsGetE orderData "products" with
  | error e => exact ⟨e, by simp only [h1, h2, h3, h4]⟩
  | ok products =>
  cases h5 : jsJoin products ", " with
  | error e => exact ⟨e, by simp only [h1, h2, h3, h4, h5]⟩
  | ok p =>
  cases h6 : jsGetE orderData "quantities" with
  | error e => exact ⟨e, by simp only [h1, h2, h3, h4, h5, h6]⟩
  | ok quantities =>
  cases h7 : jsJoin quantities ", " with
  | error e => exact ⟨e, by simp only [h1, h2, h3, h4, h5, h6, h7]⟩
  | ok q =>
  cases h8 : jsGetE orderData "totalAmount" with
  | error e => exact ⟨e, by simp only [h1, h2, h3, h4, h5, h6, h7, h8]⟩
  | ok total =>
  cases h9 : jsToUpperCase urgForEmoji with
  | error e => exact ⟨e, by simp only [h1, h2, h3, h4, h5, h6, h7, h8, h9]⟩
  | ok u =>
      exfalso
      have hstr := jsToUpperCase_ok_isStr urgForEmoji u h9
      rw [jsGetE_ok orderData "urgency" urgForEmoji h1] at hstr
      rw [hstr] at hu
      exact Bool.noConfusion hu

/-- C10: the two sinks are total boolean functions — any internal throw
(here exhibited through ill-typed order judgments: a non-array
`products` for the ledger, a non-string `urgency` for the alert) is
caught and mapped to `false`, with nothing appended; no error ever
propagates past their boundary. -/
theorem claim_C10_confirmed :
    (∀ (cfg ok : Bool) (locale : String → Nat → String) (now : Nat)
        (orderData : Json) (msg : Message),
        (jsGetD orderData "products").isArr = false →
        logOrderToSheet cfg ok locale now orderData msg = (false, [])) ∧
    (∀ (cfg ok : Bool) (orderData : Json) (msg : Message),
        (jsGetD orderData "urgency").isStr = false →
        sendSlackNotification cfg ok orderData msg = false) := by
  constructor
  · intro cfg ok locale now orderData msg hp
    cases cfg with
    | false => rfl
    | true =>
        obtain ⟨e, he⟩ := logRow_err_products locale now orderData msg hp
        simp [logOrderToSheet, he]
  · intro cfg ok orderData msg hu
    cases cfg with
    | false => rfl
    | true =>
        obtain ⟨e, he⟩ := slackChecks_err_urgency orderData hu
        simp [sendSlackNotification, he]

/-- C10, witness: a numeric `products` field and a numeric `urgency`
field make the respective sink return `false` instead of throwing. -/
theorem claim_C10_witness :
    logOrderToSheet true true (fun _ _ => "ts") 0
        (Json.obj [("products", Json.num 5)]) msgIn = (false, []) ∧
    sendSlackNotification true true (Json.obj [("urgency", Json.num 3)]) msgIn
        = false :=
  ⟨claim_C10_confirmed.1 true true (fun _ _ => "ts") 0
      (Json.obj [("products", Json.num 5)]) msgIn rfl,
   claim_C10_confirmed.2 true true (Json.obj [("urgency", Json.num 3)]) msgIn rfl⟩

end OrderAutomation
